import Mathlib

/-!
Shallow embedding of the rendering core of the `rust-raytracer` repository.

`f64` arithmetic is modelled by exact rational arithmetic (`ℚ`); `f64::sqrt`
is an abstract function parameter `sq : ℚ → ℚ` (the claims settled here do
not depend on the numeric value of square roots).  Thread-local randomness
(`rand::thread_rng`) is modelled by explicit entropy oracles passed to the
functions that consume it.  A Rust `panic!` is modelled by `Option.none`.

The modules `vec3.rs`, `ray.rs`, `triangle.rs`, `hit.rs`, `material.rs` and
`world.rs` are declared in `lib.rs` but their sources are not available;
definitions for them are modelled from the specification and marked
`Modelled from the spec:` in their doc comments.  Everything else is
translated directly from `src/tracer.rs`, `src/mesh.rs`, `src/config.rs`
and `src/camera.rs`.
-/

namespace RustRaytracer

/-- Modelled from the spec: `Vec3` (vec3.rs is not in the sources) — three
floating-point components, used as point, direction and RGB color. -/
structure Vec3 where
  x : ℚ
  y : ℚ
  z : ℚ
deriving DecidableEq, Repr

namespace Vec3

/-- Constructor `Vec3::new`. -/
def new (x y z : ℚ) : Vec3 := ⟨x, y, z⟩

instance : Add Vec3 := ⟨fun a b => ⟨a.x + b.x, a.y + b.y, a.z + b.z⟩⟩

instance : Sub Vec3 := ⟨fun a b => ⟨a.x - b.x, a.y - b.y, a.z - b.z⟩⟩

/-- Component-wise product (used for attenuation · color). -/
instance : Mul Vec3 := ⟨fun a b => ⟨a.x * b.x, a.y * b.y, a.z * b.z⟩⟩

/-- Scalar multiplication `Vec3 * f64`. -/
instance : HMul Vec3 ℚ Vec3 := ⟨fun a c => ⟨a.x * c, a.y * c, a.z * c⟩⟩

/-- Scalar division `Vec3 / f64`. -/
instance : HDiv Vec3 ℚ Vec3 := ⟨fun a c => ⟨a.x / c, a.y / c, a.z / c⟩⟩

end Vec3

/-- Modelled from the spec: dot product. -/
def dot (a b : Vec3) : ℚ := a.x * b.x + a.y * b.y + a.z * b.z

/-- Modelled from the spec: cross product. -/
def cross (a b : Vec3) : Vec3 :=
  ⟨a.y * b.z - a.z * b.y, a.z * b.x - a.x * b.z, a.x * b.y - a.y * b.x⟩

/-- Modelled from the spec: normalization `unit_vector`; the square root in
the vector length is the abstract `sq` parameter. -/
def unit_vector (sq : ℚ → ℚ) (v : Vec3) : Vec3 := v / sq (dot v v)

/-- Modelled from the spec: `Ray` — origin + direction (ray.rs is not in the
sources). -/
structure Ray where
  origin : Vec3
  direction : Vec3
deriving DecidableEq, Repr

namespace Ray

/-- Constructor `Ray::new`. -/
def new (origin direction : Vec3) : Ray := ⟨origin, direction⟩

/-- Evaluation `Ray::at`: origin + direction·t. -/
def at_ (r : Ray) (t : ℚ) : Vec3 := r.origin + r.direction * t

end Ray

/-- Modelled from the spec: `Triangle` — three vertex positions, one face
normal, three per-vertex normals, a smooth flag (triangle.rs is not in the
sources).  The Rust arrays `points[0..3]` and `normals[0..3]` become the
fields `p0 p1 p2` and `n0 n1 n2`. -/
structure Triangle where
  p0 : Vec3
  p1 : Vec3
  p2 : Vec3
  normal : Vec3
  n0 : Vec3
  n1 : Vec3
  n2 : Vec3
  smooth : Bool
deriving DecidableEq, Repr

instance : Inhabited Triangle :=
  ⟨⟨⟨0,0,0⟩, ⟨0,0,0⟩, ⟨0,0,0⟩, ⟨0,0,0⟩, ⟨0,0,0⟩, ⟨0,0,0⟩, ⟨0,0,0⟩, false⟩⟩

/-- Modelled from the spec: the closed material variant type — Diffuse{albedo}
or Metal{albedo, fuzz} (material.rs is not in the sources). -/
inductive MaterialEnum where
  | Diffuse (albedo : Vec3)
  | Metal (albedo : Vec3) (fuzz : ℚ)
deriving DecidableEq, Repr

namespace MaterialEnum

/-- Accessor `Material::get_albedo`. -/
def get_albedo : MaterialEnum → Vec3
  | .Diffuse a => a
  | .Metal a _ => a

end MaterialEnum

/-- The white diffuse material used by `Mesh::new` and as the default of a
fresh `Hit`. -/
def whiteDiffuse : MaterialEnum := .Diffuse ⟨1, 1, 1⟩

/-- Modelled from the spec: sentinel z-coordinate of a fresh `Hit` (hit.rs is
not in the sources).  For the linear scan of `Mesh::hit` / `World::hit` to
keep the closest hit by the z comparison, the initial hit point must lose
every comparison against a real hit; this models an `f64` initialization
below every representable hit point (any finite `f64` is above it,
2^1024 being above the largest finite `f64`). -/
def sentinelZ : ℚ :=
  let q : ℚ := ((2 ^ 256 : ℕ) : ℚ);
  -(q * q * q * q)

/-- Modelled from the spec: `Hit` — hit distance `t` (≤ 0 sentinel = no hit),
hit point `at`, the triangle hit and a copy of the owning mesh's material
(hit.rs is not in the sources). -/
structure Hit where
  t : ℚ
  at_ : Vec3
  triangle : Triangle
  material : MaterialEnum
deriving DecidableEq, Repr

namespace Hit

/-- Modelled from the spec: `Hit::new`, the no-hit value (`t ≤ 0`, hit point
at the sentinel depth). -/
def new : Hit := ⟨-1, ⟨0, 0, sentinelZ⟩, default, whiteDiffuse⟩

end Hit

/-- Modelled from the spec: the fixed epsilon of the Möller–Trumbore
intersection test. -/
def EPSILON : ℚ := 1 / 10 ^ 7

/-- Modelled from the spec: `Triangle::hit` — the Möller–Trumbore ray/triangle
test of spec §4.1 (triangle.rs is not in the sources).  Parallel rays, and
barycentric rejects, report no-hit (`Hit::new`); a hit is reported only for
`t` strictly greater than the epsilon, with `at` populated via `ray.at(t)`
and the material left at its default for the caller to stamp. -/
def Triangle.hit (tr : Triangle) (r : Ray) : Hit :=
  let e1 := tr.p1 - tr.p0
  let e2 := tr.p2 - tr.p0
  let h := cross r.direction e2
  let a := dot e1 h
  if -EPSILON < a ∧ a < EPSILON then Hit.new
  else
    let f := 1 / a
    let s := r.origin - tr.p0
    let u := f * dot s h
    if u < 0 ∨ 1 < u then Hit.new
    else
      let q := cross s e1
      let v := f * dot r.direction q
      if v < 0 ∨ 1 < u + v then Hit.new
      else
        let t := f * dot e2 q
        if EPSILON < t then ⟨t, r.at_ t, tr, whiteDiffuse⟩
        else Hit.new

/-- Struct `Mesh` (src/mesh.rs): all the triangles plus the mesh's material. -/
structure Mesh where
  triangles : List Triangle
  material : MaterialEnum
deriving DecidableEq, Repr

namespace Mesh

/-- Constructor `Mesh::new`: empty triangle list, white diffuse material. -/
def new : Mesh := ⟨[], whiteDiffuse⟩

/-- Constructor `Mesh::new_mesh`: given triangles, grey diffuse material. -/
def new_mesh (trigs : List Triangle) : Mesh :=
  ⟨trigs, .Diffuse ⟨1/2, 1/2, 1/2⟩⟩

/-- Mutator `Mesh::add`. -/
def add (m : Mesh) (trig : Triangle) : Mesh :=
  { m with triangles := m.triangles ++ [trig] }

/-- Transform `Mesh::translate` (src/mesh.rs lines 62–69): add `d` component-wise to
every point of every triangle. -/
def translate (m : Mesh) (d : Vec3) : Mesh :=
  { m with
    triangles := m.triangles.map fun trig =>
      { trig with
        p0 := ⟨trig.p0.x + d.x, trig.p0.y + d.y, trig.p0.z + d.z⟩
        p1 := ⟨trig.p1.x + d.x, trig.p1.y + d.y, trig.p1.z + d.z⟩
        p2 := ⟨trig.p2.x + d.x, trig.p2.y + d.y, trig.p2.z + d.z⟩ } }

/-- One step of the linear scan of `Mesh::hit` (src/mesh.rs lines 216–226):
if the triangle's own hit has `t > 0` and its hit point's z beats the
current closest, it becomes the closest and the mesh material is stamped. -/
def hitStep (material : MaterialEnum) (closest : Hit) (trig : Triangle)
    (r : Ray) : Hit :=
  let hit := trig.hit r
  if hit.t > 0 then
    if hit.at_.z > closest.at_.z then { hit with material := material }
    else closest
  else closest

/-- Intersection `Mesh::hit` (src/mesh.rs lines 211–228): linear scan over all triangles
keeping the closest hit by the z comparison, starting from `Hit::new`. -/
def hit (m : Mesh) (r : Ray) : Hit :=
  m.triangles.foldl (fun closest trig => hitStep m.material closest trig r)
    Hit.new

end Mesh

/-- Struct `World` (world.rs is not in the sources): the collection of meshes. -/
structure World where
  meshes : List Mesh
deriving DecidableEq, Repr

namespace World

/-- Constructor `World::new`. -/
def new : World := ⟨[]⟩

/-- Mutator `World::add`. -/
def add (w : World) (m : Mesh) : World := ⟨w.meshes ++ [m]⟩

/-- Modelled from the spec: `World::hit` (world.rs is not in the sources) —
delegate to every mesh's `hit`, picking the best by the same z-based
comparison among real hits (spec §4.2). -/
def hit (w : World) (r : Ray) : Hit :=
  w.meshes.foldl
    (fun closest m =>
      let hit := m.hit r
      if hit.t > 0 then
        if hit.at_.z > closest.at_.z then hit else closest
      else closest)
    Hit.new

end World

end RustRaytracer
namespace RustRaytracer

/-- Modelled from the spec: barycentric coordinates of the hit point inside
the hit triangle (vec3.rs `barycentric` is not in the sources) — the
standard solve expressing `hit.at − p0` in the edge basis; used only to
interpolate per-vertex normals in Normals mode. -/
def barycentric (hit : Hit) : Vec3 :=
  let v0 := hit.triangle.p1 - hit.triangle.p0
  let v1 := hit.triangle.p2 - hit.triangle.p0
  let v2 := hit.at_ - hit.triangle.p0
  let d00 := dot v0 v0
  let d01 := dot v0 v1
  let d11 := dot v1 v1
  let d20 := dot v2 v0
  let d21 := dot v2 v1
  let denom := d00 * d11 - d01 * d01
  let v := (d11 * d20 - d01 * d21) / denom
  let w := (d00 * d21 - d01 * d20) / denom
  ⟨1 - v - w, v, w⟩

/-- Modelled from the spec: `Material::scatter` (material.rs is not in the
sources), spec §4.3.  The random unit vector drawn from the thread-local
generator is the explicit argument `rv`.  Diffuse always scatters from the
hit point toward the surface normal offset by the random unit vector, with
the albedo as attenuation.  Metal reflects the incoming direction about the
surface normal, perturbs by `fuzz · rv`, and rejects (absorption) when the
resulting direction's dot product with the surface normal is ≤ 0. -/
def MaterialEnum.scatter (m : MaterialEnum) (r : Ray) (hit : Hit)
    (rv : Vec3) : Option (Vec3 × Ray) :=
  match m with
  | .Diffuse albedo =>
      some (albedo, Ray.new hit.at_ (hit.triangle.normal + rv))
  | .Metal albedo fuzz =>
      let n := hit.triangle.normal
      let reflected := r.direction - n * (2 * dot r.direction n)
      let scattered := reflected + rv * fuzz
      if dot scattered n > 0 then some (albedo, Ray.new hit.at_ scattered)
      else none

/-- Enum `DrawingMode` (src/config.rs): Colors, Normals, or Samples(n). -/
inductive DrawingMode where
  | Colors
  | Normals
  | Samples (n : ℕ)
deriving DecidableEq, Repr

/-- Struct `RayTracerConfig` (src/config.rs). -/
structure RayTracerConfig where
  mode : DrawingMode
  width : ℕ
  height : ℕ
  max_depth : ℕ
deriving DecidableEq, Repr

namespace RayTracerConfig

/-- Default `RayTracerConfig::default`. -/
def default : RayTracerConfig :=
  ⟨.Samples 3, 480, 270, 5⟩

/-- Constructor `RayTracerConfig::new`. -/
def new : RayTracerConfig := default

/-- Builder `RayTracerConfig::mode` (src/config.rs lines 39–42); named
`setMode` because `mode` is the field's name. -/
def setMode (c : RayTracerConfig) (m : DrawingMode) : RayTracerConfig :=
  { c with mode := m }

/-- Builder `RayTracerConfig::width` (src/config.rs lines 44–47): stores the
width with no validation; named `setWidth` because `width` is the field. -/
def setWidth (c : RayTracerConfig) (w : ℕ) : RayTracerConfig :=
  { c with width := w }

/-- Builder `RayTracerConfig::height` (src/config.rs lines 49–52): stores the
height with no validation; named `setHeight` because `height` is the field. -/
def setHeight (c : RayTracerConfig) (h : ℕ) : RayTracerConfig :=
  { c with height := h }

/-- Builder `RayTracerConfig::max_depth`; named `setMaxDepth` because
`max_depth` is the field's name. -/
def setMaxDepth (c : RayTracerConfig) (d : ℕ) : RayTracerConfig :=
  { c with max_depth := d }

end RayTracerConfig

/-- Struct `Camera` (src/camera.rs). -/
structure Camera where
  origin : Vec3
  lower_left_corner : Vec3
  horizontal : Vec3
  vertical : Vec3
deriving DecidableEq, Repr

/-- Constructor `Camera::with_aspect_ratio` (src/camera.rs): viewport height 2, focal
length 5, origin at zero. -/
def Camera.with_aspect_ratio (viewport_aspect_ratio : ℚ) : Camera :=
  let viewport_height : ℚ := 2
  let viewport_width : ℚ := viewport_aspect_ratio * viewport_height
  let focal_length : ℚ := 5
  let origin : Vec3 := ⟨0, 0, 0⟩
  let horizontal : Vec3 := ⟨viewport_width, 0, 0⟩
  let vertical : Vec3 := ⟨0, viewport_height, 0⟩
  let half_horizontal : Vec3 := horizontal / (2:ℚ)
  let half_vertical : Vec3 := vertical / (2:ℚ)
  let lower_left_corner : Vec3 :=
    origin - half_horizontal - half_vertical - Vec3.new 0 0 focal_length
  ⟨origin, lower_left_corner, horizontal, vertical⟩

/-- Struct `RayTracer` (src/tracer.rs). -/
structure RayTracer where
  camera : Camera
  config : RayTracerConfig
  world : World
deriving DecidableEq, Repr

namespace RayTracer

/-- Constructor `RayTracer::new` (src/tracer.rs lines 23–30): aspect ratio is
width/height as floats, world starts empty. -/
def new (config : RayTracerConfig) : RayTracer :=
  let aspect_ratio : ℚ := (config.width : ℚ) / (config.height : ℚ)
  ⟨Camera.with_aspect_ratio aspect_ratio, config, World.new⟩

/-- Mutator `RayTracer::add_mesh`. -/
def add_mesh (rt : RayTracer) (m : Mesh) : RayTracer :=
  { rt with world := rt.world.add m }

/-- The sky-gradient fall-through of `ray_color` (src/tracer.rs lines
188–193): `t = (direction.y + 1) * 0.5`, then lerp white → light blue. -/
def sky (r : Ray) : Vec3 :=
  let n := r.direction
  let t := (n.y + 1) * (1/2)
  (Vec3.new 1 1 1 * (1 - t)) + Vec3.new (1/2) (7/10) 1 * t

/-- The interpolation parameter of the sky gradient, exposed for reasoning
about its range. -/
def skyT (r : Ray) : ℚ := (r.direction.y + 1) * (1/2)

/-- The Normals-mode shading of `ray_color` (src/tracer.rs lines 140–160):
barycentric-interpolated unit normal for smooth triangles, the flat face
normal otherwise, remapped from [-1,1] to [0,1] per channel. -/
def normalsShade (sq : ℚ → ℚ) (hit : Hit) : Vec3 :=
  let n :=
    if hit.triangle.smooth then
      let bary := barycentric hit
      unit_vector sq
        (hit.triangle.n0 * bary.x + hit.triangle.n1 * bary.y
          + hit.triangle.n2 * bary.z)
    else hit.triangle.normal
  Vec3.new (n.x + 1) (n.y + 1) (n.z + 1) * ((1:ℚ)/2)

/-- Shading `RayTracer::ray_color` (src/tracer.rs lines 126–194).  `rv` is the
stream of random unit vectors consumed by `scatter`, one per bounce level.
In Samples mode a zero depth yields black before the hit is examined; a
scatter decline falls through to the sky gradient, as does any miss. -/
def ray_color (sq : ℚ → ℚ) (rt : RayTracer) : ℕ → (ℕ → Vec3) → Ray → Vec3
  | depth, rv, r =>
    let hit := rt.world.hit r
    match rt.config.mode with
    | .Colors =>
        if hit.t > 0 then hit.material.get_albedo else sky r
    | .Normals =>
        if hit.t > 0 then normalsShade sq hit else sky r
    | .Samples _ =>
        match depth with
        | 0 => Vec3.new 0 0 0
        | d + 1 =>
            if hit.t > 0 then
              match hit.material.scatter r hit (rv 0) with
              | some (attenuation, scattered) =>
                  attenuation *
                    ray_color sq rt d (fun n => rv (n + 1)) scattered
              | none => sky r
            else sky r

end RayTracer

end RustRaytracer
namespace RustRaytracer

/-- The entropy a single pixel's computation may consume: `jitter k` models
the k-th `rng.gen::<f64>()` drawn in `generate_pixel` (two per sample), and
`scat s k` models the random unit vector consumed by `scatter` at bounce
level `k` of sample `s`. -/
structure Entropy where
  jitter : ℕ → ℚ
  scat : ℕ → ℕ → Vec3

/-- The all-zero entropy oracle (a stub RNG that always returns 0). -/
def zeroEntropy : Entropy := ⟨fun _ => 0, fun _ _ => ⟨0, 0, 0⟩⟩

namespace RayTracer

/-- The ray cast for pixel (x, y) in Colors/Normals mode (src/tracer.rs
lines 76–87): `u = x/(width-1)`, `v = y/(height-1)`. -/
def cnRay (rt : RayTracer) (x y : ℕ) : Ray :=
  let u : ℚ := (x : ℚ) / ((rt.config.width - 1 : ℕ) : ℚ)
  let v : ℚ := (y : ℚ) / ((rt.config.height - 1 : ℕ) : ℚ)
  Ray.new rt.camera.origin
    (rt.camera.lower_left_corner + (rt.camera.horizontal * u)
      + (rt.camera.vertical * v) - rt.camera.origin)

/-- One jittered sample ray of Samples mode (src/tracer.rs lines 101–110):
`u = (x + j1)/(width-1)`, `v = (y + j2)/(height-1)` with `j1`, `j2` the two
random draws of the sample. -/
def samplesRay (rt : RayTracer) (x y : ℕ) (j1 j2 : ℚ) : Ray :=
  let u : ℚ := ((x : ℚ) + j1) / ((rt.config.width - 1 : ℕ) : ℚ)
  let v : ℚ := ((y : ℚ) + j2) / ((rt.config.height - 1 : ℕ) : ℚ)
  Ray.new rt.camera.origin
    (rt.camera.lower_left_corner + (rt.camera.horizontal * u)
      + (rt.camera.vertical * v) - rt.camera.origin)

/-- Sampling `RayTracer::generate_pixel` (src/tracer.rs lines 74–118): Colors/Normals
cast one grid ray; Samples(n) sums `ray_color` over n jittered rays. -/
def generate_pixel (sq : ℚ → ℚ) (rt : RayTracer) (ent : Entropy)
    (x y : ℕ) : Vec3 :=
  match rt.config.mode with
  | .Colors | .Normals =>
      ray_color sq rt rt.config.max_depth (ent.scat 0) (rt.cnRay x y)
  | .Samples samples =>
      (List.range samples).foldl
        (fun color s =>
          color +
            ray_color sq rt rt.config.max_depth (ent.scat s)
              (rt.samplesRay x y (ent.jitter (2 * s)) (ent.jitter (2 * s + 1))))
        (Vec3.new 0 0 0)

end RayTracer

/-- Rust `as u32` on a (finite, here: rational) f64 value: saturating cast —
negative values to 0, values at or above `u32::MAX` to `u32::MAX`, otherwise
truncation toward zero. -/
def rustCastU32 (q : ℚ) : ℕ :=
  if q < 0 then 0 else min q.floor.toNat (2 ^ 32 - 1)

/-- Rust `f64::clamp(lo, hi)` on finite values: `min (max q lo) hi`. -/
def clampQ (q lo hi : ℚ) : ℚ := min (max q lo) hi

/-- The PPM color line `"<r> <g> <b>"`. -/
def fmtColor (r g b : ℕ) : String :=
  toString r ++ " " ++ toString g ++ " " ++ toString b

namespace RayTracer

/-- The channel encoding of `RayTracer::write_color` (src/tracer.rs lines
212–226): Colors/Normals scale by 255 and cast; Samples divides by the
sample count, takes the square root (gamma 2), clamps to [0, 0.999] and then
scales by 255 and casts. -/
def encodeChannel (sq : ℚ → ℚ) (rt : RayTracer) (c : ℚ) : ℕ :=
  match rt.config.mode with
  | .Colors | .Normals => rustCastU32 (c * 255)
  | .Samples samples =>
      rustCastU32 (clampQ (sq (c * (1 / (samples : ℚ)))) 0 (999/1000) * 255)

/-- Encoding `RayTracer::write_color` (src/tracer.rs lines 208–234): encode the three
channels, panic (`none`) if any exceeds 255, otherwise emit the color line. -/
def write_color (sq : ℚ → ℚ) (rt : RayTracer) (color : Vec3) :
    Option String :=
  let r := rt.encodeChannel sq color.x
  let g := rt.encodeChannel sq color.y
  let b := rt.encodeChannel sq color.z
  if r > 255 ∨ g > 255 ∨ b > 255 then none
  else some (fmtColor r g b)

/-- Header `RayTracer::write_header` (src/tracer.rs lines 196–202): the three
header lines `P3`, `<width> <height>`, `255`. -/
def header (rt : RayTracer) : List String :=
  ["P3", toString rt.config.width ++ " " ++ toString rt.config.height, "255"]

/-- The row-major pixel coordinate sequence of the render loops (src/tracer.rs
lines 40–44 and 56–65): `y` from `height-1` down to 0, `x` from 0 to
`width-1` within each row. -/
def pixelIndices (rt : RayTracer) : List (ℕ × ℕ) :=
  (List.range rt.config.height).reverse.flatMap fun y =>
    (List.range rt.config.width).map fun x => (x, y)

/-- The pixel values in output order (the loop body of `run_sequential` and
the order-preserving parallel collect of `run_parallel`). -/
def pixelsSeq (sq : ℚ → ℚ) (rt : RayTracer) (ent : ℕ → ℕ → Entropy) :
    List Vec3 :=
  rt.pixelIndices.map fun p => rt.generate_pixel sq (ent p.1 p.2) p.1 p.2

/-- Driver `RayTracer::run_sequential` (src/tracer.rs lines 36–48): write the
header, then write every pixel in row-major top-to-bottom order, aborting
(`none`) on the first failed color write. -/
def run_sequential (sq : ℚ → ℚ) (rt : RayTracer) (ent : ℕ → ℕ → Entropy) :
    Option (List String) :=
  (rt.pixelsSeq sq ent |>.mapM (rt.write_color sq)).map
    fun lines => rt.header ++ lines

/-- Driver `RayTracer::run_parallel` (src/tracer.rs lines 50–72).  The rayon
workers compute pixels in an arbitrary schedule order (`sched` lists the
positions of `pixelIndices` in the order the workers process them); the
order-preserving `collect` of the indexed parallel iterator reassembles the
results into the original row-major position order before the sequential
write loop runs. -/
def run_parallel (sq : ℚ → ℚ) (rt : RayTracer) (ent : ℕ → ℕ → Entropy)
    (sched : List ℕ) : Option (List String) :=
  let ixs := rt.pixelIndices
  let results : List (ℕ × Vec3) := sched.map fun i =>
    (i, match ixs[i]? with
        | some p => rt.generate_pixel sq (ent p.1 p.2) p.1 p.2
        | none => Vec3.new 0 0 0)
  let pixels : List Vec3 := (List.range ixs.length).map fun i =>
    ((results.lookup i).getD (Vec3.new 0 0 0))
  (pixels.mapM (rt.write_color sq)).map fun lines => rt.header ++ lines

end RayTracer

/-- Modelled from IEEE 754: the `f64` value domain with the special values
made explicit — a finite value (held exactly; rounding and finite overflow
are not modelled), NaN, +∞ and −∞.  The exact-rational embedding above
cannot express division by zero, so the claims about it are settled over
this domain instead; zero signs are not modelled (Rust's `(width - 1) as
f64` produces +0). -/
inductive FP where
  | fin (q : ℚ)
  | nan
  | pinf
  | minf
deriving DecidableEq, Repr

namespace FP

/-- Whether a value is finite (neither NaN nor infinite). -/
def isFinite : FP → Bool
  | fin _ => true
  | _ => false

/-- IEEE addition: NaN propagates, opposite infinities give NaN. -/
def add : FP → FP → FP
  | fin a, fin b => fin (a + b)
  | nan, _ => nan
  | _, nan => nan
  | pinf, minf => nan
  | minf, pinf => nan
  | pinf, _ => pinf
  | _, pinf => pinf
  | minf, _ => minf
  | _, minf => minf

/-- IEEE negation. -/
def neg : FP → FP
  | fin a => fin (-a)
  | nan => nan
  | pinf => minf
  | minf => pinf

/-- IEEE subtraction: `a - b = a + (-b)`. -/
def sub (a b : FP) : FP := add a (neg b)

/-- IEEE multiplication: NaN propagates, `0 · ∞` is NaN, signed infinities
otherwise. -/
def mul : FP → FP → FP
  | nan, _ => nan
  | _, nan => nan
  | fin a, fin b => fin (a * b)
  | fin a, pinf => if a = 0 then nan else if 0 < a then pinf else minf
  | fin a, minf => if a = 0 then nan else if 0 < a then minf else pinf
  | pinf, fin b => if b = 0 then nan else if 0 < b then pinf else minf
  | minf, fin b => if b = 0 then nan else if 0 < b then minf else pinf
  | pinf, pinf => pinf
  | pinf, minf => minf
  | minf, pinf => minf
  | minf, minf => pinf

/-- IEEE division: NaN propagates, `0/0` is NaN, a nonzero finite value over
(+)0 is a signed infinity, a finite value over an infinity is 0, `∞/∞` is
NaN. -/
def div : FP → FP → FP
  | nan, _ => nan
  | _, nan => nan
  | fin a, fin b =>
      if b = 0 then (if a = 0 then nan else if 0 < a then pinf else minf)
      else fin (a / b)
  | fin _, pinf => fin 0
  | fin _, minf => fin 0
  | pinf, fin b => if 0 ≤ b then pinf else minf
  | minf, fin b => if 0 ≤ b then minf else pinf
  | pinf, _ => nan
  | minf, _ => nan

/-- IEEE strict less-than: any comparison with NaN is false. -/
def blt : FP → FP → Bool
  | fin a, fin b => a < b
  | nan, _ => false
  | _, nan => false
  | pinf, pinf => false
  | minf, minf => false
  | _, pinf => true
  | pinf, _ => false
  | minf, _ => true
  | _, minf => false

/-- Rust `as u32` on an `f64`: NaN and −∞ saturate to 0, +∞ saturates to
`u32::MAX`, finite values truncate toward zero with saturation. -/
def toU32 : FP → ℕ
  | nan => 0
  | minf => 0
  | pinf => 2 ^ 32 - 1
  | fin q => rustCastU32 q

end FP

/-- A `Vec3` over the IEEE value domain. -/
structure Vec3F where
  x : FP
  y : FP
  z : FP
deriving DecidableEq, Repr

namespace Vec3F

/-- Component-wise addition. -/
def addV (a b : Vec3F) : Vec3F := ⟨FP.add a.x b.x, FP.add a.y b.y, FP.add a.z b.z⟩

/-- Component-wise subtraction. -/
def subV (a b : Vec3F) : Vec3F := ⟨FP.sub a.x b.x, FP.sub a.y b.y, FP.sub a.z b.z⟩

/-- Scalar multiplication `Vec3 * f64`. -/
def smulV (a : Vec3F) (c : FP) : Vec3F := ⟨FP.mul a.x c, FP.mul a.y c, FP.mul a.z c⟩

/-- Scalar division `Vec3 / f64`. -/
def sdivV (a : Vec3F) (c : FP) : Vec3F := ⟨FP.div a.x c, FP.div a.y c, FP.div a.z c⟩

end Vec3F

/-- The UV coordinate computation of `generate_pixel` (src/tracer.rs lines
77–78 and 101–102) over the IEEE value domain: the pixel coordinate plus
the (possibly zero) jitter, divided by `dimension - 1` as the code computes
it in `u32` before casting to `f64`. -/
def uvF (dim coord : ℕ) (jitter : ℚ) : FP :=
  FP.div (.fin ((coord : ℚ) + jitter)) (.fin ((dim - 1 : ℕ) : ℚ))

/-- Transcription of `Camera::with_aspect_ratio` (src/camera.rs) over the
IEEE value domain. -/
structure CameraF where
  origin : Vec3F
  lower_left_corner : Vec3F
  horizontal : Vec3F
  vertical : Vec3F
deriving DecidableEq, Repr

/-- Transcription of `Camera::with_aspect_ratio` over the IEEE domain:
viewport height 2, focal length 5, origin at zero. -/
def CameraF.with_aspect_ratioF (viewport_aspect_ratio : FP) : CameraF :=
  let viewport_height : FP := .fin 2
  let viewport_width : FP := FP.mul viewport_aspect_ratio viewport_height
  let focal_length : FP := .fin 5
  let origin : Vec3F := ⟨.fin 0, .fin 0, .fin 0⟩
  let horizontal : Vec3F := ⟨viewport_width, .fin 0, .fin 0⟩
  let vertical : Vec3F := ⟨.fin 0, viewport_height, .fin 0⟩
  let lower_left_corner : Vec3F :=
    Vec3F.subV
      (Vec3F.subV (Vec3F.subV origin (Vec3F.sdivV horizontal (.fin 2)))
        (Vec3F.sdivV vertical (.fin 2)))
      ⟨.fin 0, .fin 0, focal_length⟩
  ⟨origin, lower_left_corner, horizontal, vertical⟩

/-- A ray over the IEEE value domain. -/
structure RayF where
  origin : Vec3F
  direction : Vec3F
deriving DecidableEq, Repr

/-- The Colors/Normals grid ray of `generate_pixel` (src/tracer.rs lines
76–87) over the IEEE domain, for the camera `RayTracer::new` builds from
width/height: `u = x/(width-1)`, `v = y/(height-1)`. -/
def cnRayF (w h x y : ℕ) : RayF :=
  let cam := CameraF.with_aspect_ratioF (FP.div (.fin (w : ℚ)) (.fin (h : ℚ)))
  let u := uvF w x 0
  let v := uvF h y 0
  ⟨cam.origin,
   Vec3F.subV
     (Vec3F.addV (Vec3F.addV cam.lower_left_corner (Vec3F.smulV cam.horizontal u))
       (Vec3F.smulV cam.vertical v))
     cam.origin⟩

/-- The sky gradient of `ray_color` (src/tracer.rs lines 188–193) over the
IEEE domain. -/
def skyF (r : RayF) : Vec3F :=
  let t := FP.mul (FP.add r.direction.y (.fin 1)) (.fin (1/2))
  Vec3F.addV (Vec3F.smulV ⟨.fin 1, .fin 1, .fin 1⟩ (FP.sub (.fin 1) t))
    (Vec3F.smulV ⟨.fin (1/2), .fin (7/10), .fin 1⟩ t)

/-- Colors-mode `ray_color` (src/tracer.rs lines 133–139) over the IEEE
domain for the world as `RayTracer::new` constructs it (empty): the fold of
`World::hit` over no meshes returns `Hit::new`, whose `t = -1` fails the
IEEE comparison `t > 0`, so the albedo branch is dead and the sky gradient
is returned. -/
def rayColorColorsEmptyF (r : RayF) : Vec3F :=
  let hit_t : FP := .fin (-1)
  if FP.blt (.fin 0) hit_t then ⟨.fin 1, .fin 1, .fin 1⟩ else skyF r

/-- The Colors/Normals branch of `write_color` (src/tracer.rs lines
213–231) over the IEEE domain: scale each channel by 255, cast, panic
(`none`) on a channel above 255, else emit the line. -/
def writeColorColorsF (c : Vec3F) : Option String :=
  let r := FP.toU32 (FP.mul c.x (.fin 255))
  let g := FP.toU32 (FP.mul c.y (.fin 255))
  let b := FP.toU32 (FP.mul c.z (.fin 255))
  if r > 255 ∨ g > 255 ∨ b > 255 then none
  else some (fmtColor r g b)

/-- `run_sequential` (src/tracer.rs lines 36–48) over the IEEE domain, for
a Colors-mode engine over the freshly constructed (empty) world: header,
then every pixel row-major from the top scanline. -/
def runSequentialColorsEmptyF (w h : ℕ) : Option (List String) :=
  let pixels := (List.range h).reverse.flatMap fun y =>
    (List.range w).map fun x => rayColorColorsEmptyF (cnRayF w h x y)
  (pixels.mapM writeColorColorsF).map
    fun lines => ["P3", toString w ++ " " ++ toString h, "255"] ++ lines

/-- A configuration with height 1 (accepted by the builders, which perform
no validation) in Colors mode. -/
def oneTallCfg : RayTracerConfig :=
  (RayTracerConfig.new).setMode DrawingMode.Colors |>.setWidth 2 |>.setHeight 1

/-- The single triangle of the C2/C1 test scene: it spans the plane z = -1
in front of the camera, with its stored face normal pointing away from the
camera so that a fuzz-0 metal reflection is rejected. -/
def awayTri : Triangle :=
  { p0 := ⟨-1, -1, -1⟩, p1 := ⟨1, -1, -1⟩, p2 := ⟨0, 1, -1⟩,
    normal := ⟨0, 0, -1⟩, n0 := ⟨0, 0, -1⟩, n1 := ⟨0, 0, -1⟩,
    n2 := ⟨0, 0, -1⟩, smooth := false }

/-- A mesh holding `awayTri` with a fuzz-0 metal material. -/
def awayMesh : Mesh :=
  { triangles := [awayTri], material := .Metal ⟨4/5, 4/5, 4/5⟩ 0 }

/-- A ray tracer over the one-triangle metal scene, in the default
Samples(3) mode. -/
def awayRt : RayTracer :=
  (RayTracer.new ((RayTracerConfig.new).setWidth 2 |>.setHeight 2)).add_mesh
    awayMesh

/-- A 2 by 2 ray tracer in the default Samples(3) mode over an empty world. -/
def smallSamplesRt : RayTracer :=
  RayTracer.new ((RayTracerConfig.new).setWidth 2 |>.setHeight 2)

/-- A 2 by 2 ray tracer in Colors mode over an empty world. -/
def smallColorsRt : RayTracer :=
  RayTracer.new
    ((RayTracerConfig.new).setMode DrawingMode.Colors |>.setWidth 2
      |>.setHeight 2)

/-- A configuration with width 1 (accepted by the builders, which perform no
validation) in Colors mode. -/
def oneWideCfg : RayTracerConfig :=
  (RayTracerConfig.new).setMode DrawingMode.Colors |>.setWidth 1 |>.setHeight 2

/-- The PPM line stream of the 2 by 2 Colors engine over the empty world. -/
def smallColorsOut : List String :=
  ["P3", "2 2", "255", "127 178 255", "127 178 255",
   "255 255 255", "255 255 255"]

/-- The axis ray that hits `awayTri` head on. -/
def axisRay : Ray := Ray.new ⟨0, 0, 0⟩ ⟨0, 0, -1⟩

end RustRaytracer
namespace RustRaytracer

section ClaimC4

/-- C4: in Samples mode, `ray_color` called with depth 0 returns black for
every ray, regardless of what the ray would hit. -/
theorem claim_C4_depth_zero_black (sq : ℚ → ℚ) (rt : RayTracer)
    (rv : ℕ → Vec3) (r : Ray) (n : ℕ)
    (hmode : rt.config.mode = DrawingMode.Samples n) :
    RayTracer.ray_color sq rt 0 rv r = Vec3.new 0 0 0 := by
  rw [RayTracer.ray_color, hmode]

/-- Witness for C4 at the default configuration (Samples 3) and a concrete
ray aimed straight down the axis. -/
theorem claim_C4_witness :
    (RayTracer.new RayTracerConfig.new).config.mode = DrawingMode.Samples 3 ∧
    RayTracer.ray_color id (RayTracer.new RayTracerConfig.new) 0
      (fun _ => Vec3.new 0 0 0) (Ray.new (Vec3.new 0 0 0) (Vec3.new 0 0 (-1)))
      = Vec3.new 0 0 0 :=
  ⟨rfl, claim_C4_depth_zero_black id (RayTracer.new RayTracerConfig.new)
    (fun _ => Vec3.new 0 0 0) (Ray.new (Vec3.new 0 0 0) (Vec3.new 0 0 (-1)))
    3 rfl⟩

end ClaimC4

section ClaimC8

/-- C8: the jittered Samples-mode ray with both random draws equal to 0 is
exactly the Colors/Normals grid ray of the same pixel, whose UV is
`u = x/(width-1)`, `v = y/(height-1)` (the pixel's top-left corner). -/
theorem claim_C8_zero_jitter_ray (rt : RayTracer) (x y : ℕ) :
    rt.samplesRay x y 0 0 = rt.cnRay x y ∧
    rt.cnRay x y = Ray.new rt.camera.origin
      (rt.camera.lower_left_corner
        + rt.camera.horizontal * ((x : ℚ) / ((rt.config.width - 1 : ℕ) : ℚ))
        + rt.camera.vertical * ((y : ℚ) / ((rt.config.height - 1 : ℕ) : ℚ))
        - rt.camera.origin) := by
  constructor
  · unfold RayTracer.samplesRay RayTracer.cnRay
    rw [add_zero, add_zero]
  · rfl

end ClaimC8

section ClaimC10

/-- C10: `Mesh::translate` leaves the material untouched and maps the
triangle list in place: each triangle keeps its face normal, vertex normals
and smooth flag, and only its three vertex points move by `d`. -/
theorem claim_C10_translate_frame (m : Mesh) (d : Vec3) :
    (m.translate d).material = m.material ∧
    List.Forall₂
      (fun t' t =>
        t'.p0 = t.p0 + d ∧ t'.p1 = t.p1 + d ∧ t'.p2 = t.p2 + d ∧
        t'.normal = t.normal ∧ t'.n0 = t.n0 ∧ t'.n1 = t.n1 ∧
        t'.n2 = t.n2 ∧ t'.smooth = t.smooth)
      (m.translate d).triangles m.triangles := by
  refine ⟨rfl, ?_⟩
  show List.Forall₂ _ (m.triangles.map _) m.triangles
  induction m.triangles with
  | nil => exact List.Forall₂.nil
  | cons t ts ih =>
      exact List.Forall₂.cons ⟨rfl, rfl, rfl, rfl, rfl, rfl, rfl, rfl⟩ ih

end ClaimC10

end RustRaytracer
namespace RustRaytracer

section ClaimC2

set_option maxRecDepth 100000 in
/-- Counterexample to C2: in Samples mode at depth 5 > 0, `axisRay` hits the
metal triangle, the material's scatter declines, and `ray_color` returns the
sky gradient (3/4, 17/20, 1) of the original ray — not black as claimed. -/
theorem claim_C2_counterexample :
    awayRt.config.mode = DrawingMode.Samples 3 ∧
    (awayRt.world.hit axisRay).t > 0 ∧
    (awayRt.world.hit axisRay).material.scatter axisRay
      (awayRt.world.hit axisRay) (Vec3.new 0 0 0) = none ∧
    RayTracer.ray_color id awayRt 5 (fun _ => Vec3.new 0 0 0) axisRay
      = Vec3.new (3/4) (17/20) 1 ∧
    Vec3.new (3/4) (17/20) 1 ≠ Vec3.new 0 0 0 := by
  refine ⟨rfl, ?_, ?_, ?_, ?_⟩
  · with_unfolding_all decide
  · with_unfolding_all decide
  · with_unfolding_all decide
  · with_unfolding_all decide

/-- C2 as amended: in Samples mode with depth > 0, for a ray that hits a
triangle, a scatter decline makes `ray_color` return the sky gradient of
the original ray (not black), and a successful scatter returns the
attenuation times the recursive evaluation at depth-1. -/
theorem claim_C2_amended (sq : ℚ → ℚ) (rt : RayTracer) (rv : ℕ → Vec3)
    (r : Ray) (d n : ℕ) (hmode : rt.config.mode = DrawingMode.Samples n)
    (hhit : (rt.world.hit r).t > 0) :
    ((rt.world.hit r).material.scatter r (rt.world.hit r) (rv 0) = none →
      RayTracer.ray_color sq rt (d + 1) rv r = RayTracer.sky r) ∧
    (∀ att sc,
      (rt.world.hit r).material.scatter r (rt.world.hit r) (rv 0)
          = some (att, sc) →
      RayTracer.ray_color sq rt (d + 1) rv r
        = att * RayTracer.ray_color sq rt d (fun k => rv (k + 1)) sc) := by
  constructor
  · intro hsc
    rw [RayTracer.ray_color, hmode]
    simp only [hhit, if_true, hsc]
  · intro att sc hsc
    rw [RayTracer.ray_color, hmode]
    simp only [hhit, if_true, hsc]

set_option maxRecDepth 100000 in
/-- Witness for the amended C2 on the metal scene: the decline branch
produces the sky gradient at a concrete input. -/
theorem claim_C2_amended_witness :
    ((awayRt.world.hit axisRay).material.scatter axisRay
        (awayRt.world.hit axisRay) (Vec3.new 0 0 0) = none →
      RayTracer.ray_color id awayRt (4 + 1) (fun _ => Vec3.new 0 0 0) axisRay
        = RayTracer.sky axisRay) ∧
    (∀ att sc,
      (awayRt.world.hit axisRay).material.scatter axisRay
          (awayRt.world.hit axisRay) (Vec3.new 0 0 0) = some (att, sc) →
      RayTracer.ray_color id awayRt (4 + 1) (fun _ => Vec3.new 0 0 0) axisRay
        = att * RayTracer.ray_color id awayRt 4
            (fun _ => Vec3.new 0 0 0) sc) :=
  claim_C2_amended id awayRt (fun _ => Vec3.new 0 0 0) axisRay 4 3 rfl
    (by with_unfolding_all decide)

end ClaimC2

end RustRaytracer
namespace RustRaytracer

namespace Vec3

@[simp] theorem add_x (a b : Vec3) : (a + b).x = a.x + b.x := rfl

@[simp] theorem add_y (a b : Vec3) : (a + b).y = a.y + b.y := rfl

@[simp] theorem add_z (a b : Vec3) : (a + b).z = a.z + b.z := rfl

@[simp] theorem sub_x (a b : Vec3) : (a - b).x = a.x - b.x := rfl

@[simp] theorem sub_y (a b : Vec3) : (a - b).y = a.y - b.y := rfl

@[simp] theorem sub_z (a b : Vec3) : (a - b).z = a.z - b.z := rfl

@[simp] theorem smul_x (a : Vec3) (c : ℚ) : (a * c).x = a.x * c := rfl

@[simp] theorem sdiv_x (a : Vec3) (c : ℚ) : (a / c).x = a.x / c := rfl

@[simp] theorem sdiv_y (a : Vec3) (c : ℚ) : (a / c).y = a.y / c := rfl

@[simp] theorem sdiv_z (a : Vec3) (c : ℚ) : (a / c).z = a.z / c := rfl

@[simp] theorem smul_y (a : Vec3) (c : ℚ) : (a * c).y = a.y * c := rfl

@[simp] theorem smul_z (a : Vec3) (c : ℚ) : (a * c).z = a.z * c := rfl

@[simp] theorem new_x (a b c : ℚ) : (Vec3.new a b c).x = a := rfl

@[simp] theorem new_y (a b c : ℚ) : (Vec3.new a b c).y = b := rfl

@[simp] theorem new_z (a b c : ℚ) : (Vec3.new a b c).z = c := rfl

end Vec3

/-- The vertical UV of the Colors/Normals grid ray: for an engine built by
`RayTracer::new`, the sky parameter of the pixel ray is exactly
`v = y/(height-1)`. -/
theorem skyT_cnRay (cfg : RayTracerConfig) (x y : ℕ) :
    RayTracer.skyT ((RayTracer.new cfg).cnRay x y)
      = (y : ℚ) / ((cfg.height - 1 : ℕ) : ℚ) := by
  unfold RayTracer.skyT RayTracer.cnRay RayTracer.new
    Camera.with_aspect_ratio Ray.new
  simp
  ring

/-- One-step unfolding of `ray_color`, provable because the recursion is
structural in the depth argument. -/
theorem ray_color_unfold (sq : ℚ → ℚ) (rt : RayTracer) (depth : ℕ)
    (rv : ℕ → Vec3) (r : Ray) :
    RayTracer.ray_color sq rt depth rv r =
      (let hit := rt.world.hit r
       match rt.config.mode with
       | .Colors =>
           if hit.t > 0 then hit.material.get_albedo else RayTracer.sky r
       | .Normals =>
           if hit.t > 0 then RayTracer.normalsShade sq hit else RayTracer.sky r
       | .Samples _ =>
           match depth with
           | 0 => Vec3.new 0 0 0
           | d + 1 =>
               if hit.t > 0 then
                 match hit.material.scatter r hit (rv 0) with
                 | some (attenuation, scattered) =>
                     attenuation *
                       RayTracer.ray_color sq rt d (fun n => rv (n + 1))
                         scattered
                 | none => RayTracer.sky r
               else RayTracer.sky r) := by
  obtain ⟨cam, ⟨mode, w, h, md⟩, world⟩ := rt
  cases mode <;> cases depth <;> rfl

section ClaimC5

/-- C5 as amended: a ray that hits nothing (with positive remaining depth in
Samples mode) is shaded with the sky gradient keyed on
`t = (direction.y + 1)/2`; that parameter lies in [0, 1] for the fixed-grid
Colors/Normals pixel rays of any engine built by `RayTracer::new` with
height ≥ 2 and y < height — but not for every engine-evaluated ray (see the
counterexample). -/
theorem claim_C5_amended (sq : ℚ → ℚ) (rt : RayTracer) (rv : ℕ → Vec3)
    (r : Ray) (depth : ℕ)
    (hmiss : ¬ (rt.world.hit r).t > 0)
    (hdepth : ∀ n, rt.config.mode = DrawingMode.Samples n → 0 < depth) :
    RayTracer.ray_color sq rt depth rv r
      = Vec3.new 1 1 1 * (1 - RayTracer.skyT r)
        + Vec3.new (1/2) (7/10) 1 * RayTracer.skyT r ∧
    RayTracer.skyT r = (r.direction.y + 1) * (1/2) ∧
    ∀ (cfg : RayTracerConfig) (x y : ℕ), 2 ≤ cfg.height → y < cfg.height →
      0 ≤ RayTracer.skyT ((RayTracer.new cfg).cnRay x y) ∧
      RayTracer.skyT ((RayTracer.new cfg).cnRay x y) ≤ 1 := by
  refine ⟨?_, rfl, ?_⟩
  · rcases hm : rt.config.mode with _ | _ | n
    · rw [ray_color_unfold, hm]
      simp only [hmiss, if_false]; rfl
    · rw [ray_color_unfold, hm]
      simp only [hmiss, if_false]; rfl
    · rcases depth with _ | d
      · exact absurd (hdepth n hm) (by norm_num)
      · rw [ray_color_unfold, hm]
        simp only [hmiss, if_false]; rfl
  · intro cfg x y hh hy
    rw [skyT_cnRay]
    have h1 : (0:ℚ) < ((cfg.height - 1 : ℕ) : ℚ) := by
      have : 0 < cfg.height - 1 := by omega
      exact_mod_cast this
    constructor
    · positivity
    · rw [div_le_one h1]
      have : y ≤ cfg.height - 1 := by omega
      exact_mod_cast this

/-- Witness for the amended C5: a miss in the empty Colors-mode world shades
to the sky gradient, and the grid-ray parameter bound holds at a concrete
pixel. -/
theorem claim_C5_amended_witness :
    RayTracer.ray_color id smallColorsRt 5 (fun _ => Vec3.new 0 0 0)
        (Ray.new (Vec3.new 0 0 0) (Vec3.new 0 1 0))
      = Vec3.new 1 1 1
          * (1 - RayTracer.skyT (Ray.new (Vec3.new 0 0 0) (Vec3.new 0 1 0)))
        + Vec3.new (1/2) (7/10) 1
          * RayTracer.skyT (Ray.new (Vec3.new 0 0 0) (Vec3.new 0 1 0)) ∧
    RayTracer.skyT (Ray.new (Vec3.new 0 0 0) (Vec3.new 0 1 0))
      = ((Ray.new (Vec3.new 0 0 0) (Vec3.new 0 1 0)).direction.y + 1)
          * (1/2) ∧
    ∀ (cfg : RayTracerConfig) (x y : ℕ), 2 ≤ cfg.height → y < cfg.height →
      0 ≤ RayTracer.skyT ((RayTracer.new cfg).cnRay x y) ∧
      RayTracer.skyT ((RayTracer.new cfg).cnRay x y) ≤ 1 :=
  claim_C5_amended id smallColorsRt (fun _ => Vec3.new 0 0 0)
    (Ray.new (Vec3.new 0 0 0) (Vec3.new 0 1 0)) 5
    (by with_unfolding_all decide) (fun n _ => by norm_num)

/-- Counterexample to C5's range assertion: in the 2 by 2 Samples engine,
the jittered ray of the topmost row (y = 1, jitter 1/2 ∈ [0,1)) is evaluated
by the engine, yet its sky parameter is 3/2 ∉ [0,1]. -/
theorem claim_C5_counterexample :
    1 < smallSamplesRt.config.height ∧
    (0:ℚ) ≤ 1/2 ∧ (1/2:ℚ) < 1 ∧
    smallSamplesRt.config.mode = DrawingMode.Samples 3 ∧
    RayTracer.skyT (smallSamplesRt.samplesRay 0 1 (1/2) (1/2)) = 3/2 ∧
    ¬ RayTracer.skyT (smallSamplesRt.samplesRay 0 1 (1/2) (1/2)) ≤ 1 := by
  refine ⟨by with_unfolding_all decide, by norm_num, by norm_num, rfl, ?_, ?_⟩
  · with_unfolding_all decide
  · with_unfolding_all decide

end ClaimC5

end RustRaytracer
namespace RustRaytracer

/-- The saturating cast stays within a bound below `u32::MAX` whenever its
input does. -/
theorem rustCastU32_le {q : ℚ} {n : ℕ} (hn : n ≤ 2 ^ 32 - 1)
    (h : q ≤ (n : ℚ)) : rustCastU32 q ≤ n := by
  unfold rustCastU32
  split
  · exact Nat.zero_le n
  · rename_i hq
    refine le_trans (min_le_left _ _) ?_
    have hfloor : ¬ ((n : ℤ) + 1 ≤ q.floor) := by
      intro hge
      have : (((n : ℤ) + 1 : ℤ) : ℚ) ≤ q := Rat.le_floor.mp hge
      push_cast at this
      linarith
    omega

section ClaimC7

/-- C7: the encoding of `write_color` never trips the out-of-range panic:
in Colors/Normals mode for channels in [0, 1], and in Samples mode for any
accumulated color whatsoever (the clamp to 0.999 precedes the scale by 255),
every encoded channel is at most 255 and the write succeeds. -/
theorem claim_C7_no_panic (sq : ℚ → ℚ) (rt : RayTracer) (c : Vec3)
    (hcn : rt.config.mode = DrawingMode.Colors ∨
           rt.config.mode = DrawingMode.Normals →
      (0 ≤ c.x ∧ c.x ≤ 1) ∧ (0 ≤ c.y ∧ c.y ≤ 1) ∧ (0 ≤ c.z ∧ c.z ≤ 1)) :
    ∃ line, rt.write_color sq c = some line := by
  have key : ∀ q : ℚ, (rt.config.mode = DrawingMode.Colors ∨
      rt.config.mode = DrawingMode.Normals → 0 ≤ q ∧ q ≤ 1) →
      rt.encodeChannel sq q ≤ 255 := by
    intro q hq
    unfold RayTracer.encodeChannel
    rcases hm : rt.config.mode with _ | _ | n
    · have hb := (hq (by rw [hm]; left; rfl)).2
      refine rustCastU32_le (by norm_num) ?_
      calc q * 255 ≤ 1 * 255 := by nlinarith
        _ = (255 : ℚ) := by norm_num
    · have hb := (hq (by rw [hm]; right; rfl)).2
      refine rustCastU32_le (by norm_num) ?_
      calc q * 255 ≤ 1 * 255 := by nlinarith
        _ = (255 : ℚ) := by norm_num
    · refine rustCastU32_le (by norm_num) ?_
      have hcl : clampQ (sq (q * (1 / (n : ℚ)))) 0 (999/1000) ≤ 999/1000 :=
        min_le_right _ _
      calc clampQ (sq (q * (1 / (n : ℚ)))) 0 (999/1000) * 255
          ≤ (999/1000) * 255 := by nlinarith
        _ ≤ (255 : ℚ) := by norm_num
  unfold RayTracer.write_color
  have hx := key c.x (fun h => ⟨(hcn h).1.1, (hcn h).1.2⟩)
  have hy := key c.y (fun h => ⟨(hcn h).2.1.1, (hcn h).2.1.2⟩)
  have hz := key c.z (fun h => ⟨(hcn h).2.2.1, (hcn h).2.2.2⟩)
  rw [if_neg (by push_neg; omega)]
  exact ⟨_, rfl⟩

/-- Witness for C7: in the default Samples mode even a wildly out-of-range
accumulated color is encoded without panicking. -/
theorem claim_C7_witness :
    ∃ line,
      (RayTracer.new RayTracerConfig.new).write_color id
        (Vec3.new 500 (-3) (7/2)) = some line :=
  claim_C7_no_panic id (RayTracer.new RayTracerConfig.new)
    (Vec3.new 500 (-3) (7/2))
    (fun h => absurd h (by with_unfolding_all decide))

end ClaimC7

end RustRaytracer
namespace RustRaytracer

/-- Characterization of the `Mesh::hit` linear scan, generalized over the
accumulator: the fold either returns the accumulator unchanged (and then no
candidate — triangle hit with `t > 0` — beats the accumulator's z), or it
returns some candidate's hit with the scanned material stamped on, that
candidate strictly beats the accumulator's z, and no candidate has a larger
z than the winner. -/
theorem mesh_hit_foldl_char (mat : MaterialEnum) (r : Ray) :
    ∀ (ts : List Triangle) (acc : Hit),
      (ts.foldl (fun c t => Mesh.hitStep mat c t r) acc = acc ∧
        ∀ t ∈ ts, (t.hit r).t > 0 → (t.hit r).at_.z ≤ acc.at_.z) ∨
      (∃ t ∈ ts, (t.hit r).t > 0 ∧
        ts.foldl (fun c t => Mesh.hitStep mat c t r) acc
          = { t.hit r with material := mat } ∧
        acc.at_.z < (t.hit r).at_.z ∧
        ∀ t2 ∈ ts, (t2.hit r).t > 0 →
          (t2.hit r).at_.z ≤ (t.hit r).at_.z) := by
  intro ts
  induction ts with
  | nil => intro acc; left; exact ⟨rfl, by simp⟩
  | cons t ts ih =>
      intro acc
      by_cases h1 : (t.hit r).t > 0
      · by_cases h2 : (t.hit r).at_.z > acc.at_.z
        · have hstep : Mesh.hitStep mat acc t r
              = { t.hit r with material := mat } := by
            unfold Mesh.hitStep; rw [if_pos h1, if_pos h2]
          rcases ih { t.hit r with material := mat } with
            ⟨heq, hall⟩ | ⟨t', ht'm, ht't, heq, hlt, hall⟩
          · right
            refine ⟨t, List.mem_cons_self t ts, h1, ?_, h2, ?_⟩
            · rw [List.foldl_cons, hstep, heq]
            · intro t2 ht2 h
              rcases List.mem_cons.mp ht2 with rfl | ht2
              · exact le_refl _
              · exact hall t2 ht2 h
          · right
            refine ⟨t', List.mem_cons_of_mem t ht'm, ht't, ?_, ?_, ?_⟩
            · rw [List.foldl_cons, hstep, heq]
            · exact lt_trans h2 hlt
            · intro t2 ht2 h
              rcases List.mem_cons.mp ht2 with rfl | ht2
              · exact le_of_lt hlt
              · exact hall t2 ht2 h
        · have hstep : Mesh.hitStep mat acc t r = acc := by
            unfold Mesh.hitStep; rw [if_pos h1, if_neg h2]
          rcases ih acc with ⟨heq, hall⟩ | ⟨t', ht'm, ht't, heq, hlt, hall⟩
          · left
            refine ⟨?_, ?_⟩
            · rw [List.foldl_cons, hstep, heq]
            · intro t2 ht2 h
              rcases List.mem_cons.mp ht2 with rfl | ht2
              · exact le_of_not_lt h2
              · exact hall t2 ht2 h
          · right
            refine ⟨t', List.mem_cons_of_mem t ht'm, ht't, ?_, hlt, ?_⟩
            · rw [List.foldl_cons, hstep, heq]
            · intro t2 ht2 h
              rcases List.mem_cons.mp ht2 with rfl | ht2
              · exact le_of_lt (lt_of_le_of_lt (le_of_not_lt h2) hlt)
              · exact hall t2 ht2 h
      · have hstep : Mesh.hitStep mat acc t r = acc := by
          unfold Mesh.hitStep; rw [if_neg h1]
        rcases ih acc with ⟨heq, hall⟩ | ⟨t', ht'm, ht't, heq, hlt, hall⟩
        · left
          refine ⟨?_, ?_⟩
          · rw [List.foldl_cons, hstep, heq]
          · intro t2 ht2 h
            rcases List.mem_cons.mp ht2 with rfl | ht2
            · exact absurd h h1
            · exact hall t2 ht2 h
        · right
          refine ⟨t', List.mem_cons_of_mem t ht'm, ht't, ?_, hlt, ?_⟩
          · rw [List.foldl_cons, hstep, heq]
          · intro t2 ht2 h
            rcases List.mem_cons.mp ht2 with rfl | ht2
            · exact absurd h h1
            · exact hall t2 ht2 h

section ClaimC1

/-- C1: `Mesh::hit` scans the triangles linearly and selects the winner by
the z-coordinate of the hit point (larger z wins) among triangles whose own
hit has `t > 0` — never by the parametric distance `t` — and stamps the
mesh's material onto the returned hit whenever a winner is selected;
otherwise the no-hit sentinel comes back unchanged. -/
theorem claim_C1_mesh_hit_z_selection (m : Mesh) (r : Ray) :
    (m.hit r = Hit.new ∧
      ∀ trig ∈ m.triangles, (trig.hit r).t > 0 →
        (trig.hit r).at_.z ≤ Hit.new.at_.z) ∨
    (∃ trig ∈ m.triangles, (trig.hit r).t > 0 ∧
      m.hit r = { trig.hit r with material := m.material } ∧
      (m.hit r).material = m.material ∧
      ∀ trig2 ∈ m.triangles, (trig2.hit r).t > 0 →
        (trig2.hit r).at_.z ≤ (trig.hit r).at_.z) := by
  rcases mesh_hit_foldl_char m.material r m.triangles Hit.new with
    ⟨heq, hall⟩ | ⟨t, htm, htt, heq, _, hall⟩
  · left; exact ⟨heq, hall⟩
  · right
    refine ⟨t, htm, htt, heq, ?_, hall⟩
    rw [show m.hit r = _ from heq]

/-- Witness for C1 at the one-triangle metal scene: the axis ray selects the
triangle and the mesh material is stamped. -/
theorem claim_C1_witness :
    (awayMesh.hit axisRay = Hit.new ∧
      ∀ trig ∈ awayMesh.triangles, (trig.hit axisRay).t > 0 →
        (trig.hit axisRay).at_.z ≤ Hit.new.at_.z) ∨
    (∃ trig ∈ awayMesh.triangles, (trig.hit axisRay).t > 0 ∧
      awayMesh.hit axisRay
        = { trig.hit axisRay with material := awayMesh.material } ∧
      (awayMesh.hit axisRay).material = awayMesh.material ∧
      ∀ trig2 ∈ awayMesh.triangles, (trig2.hit axisRay).t > 0 →
        (trig2.hit axisRay).at_.z ≤ (trig.hit axisRay).at_.z) :=
  claim_C1_mesh_hit_z_selection awayMesh axisRay

end ClaimC1

end RustRaytracer
namespace RustRaytracer

/-- Looking up a key in an association list built by pairing each list
element with its image finds the image of the first occurrence, hence the
image of the key whenever the key occurs at all. -/
theorem lookup_map_self {α : Type} (f : ℕ → α) :
    ∀ (l : List ℕ) (i : ℕ), i ∈ l →
      List.lookup i (l.map fun j => (j, f j)) = some (f i) := by
  intro l
  induction l with
  | nil => intro i hi; cases hi
  | cons j l ih =>
      intro i hi
      rw [List.map_cons, List.lookup_cons]
      by_cases hij : i = j
      · subst hij; simp
      · have hbeq : (i == j) = false := by simpa using hij
        simp only [hbeq]
        exact ih i (by rcases List.mem_cons.mp hi with h | h
                       · exact absurd h hij
                       · exact h)

/-- Reading a list back through position-indexed optional access reproduces
the list: mapping over `range l.length` with a getElem?-match equals mapping
over the list itself. -/
theorem range_map_getElem_eq {α β : Type} (l : List α) (f : α → β) (d : β) :
    (List.range l.length).map
        (fun i => match l[i]? with | some a => f a | none => d)
      = l.map f := by
  apply List.ext_getElem
  · simp
  · intro i h1 h2
    simp only [List.getElem_map, List.getElem_range]
    rw [List.getElem?_eq_getElem (by simpa using h2)]

section ClaimC3

/-- C3: with no randomness consumed per pixel (Colors or Normals mode), the
parallel path — workers processing the row-major index space in an arbitrary
schedule order, results reassembled by original position before writing —
produces exactly the byte stream of the sequential path, for every schedule
that is a permutation of the index space. -/
theorem claim_C3_parallel_eq_sequential (sq : ℚ → ℚ) (rt : RayTracer)
    (ent : ℕ → ℕ → Entropy) (sched : List ℕ)
    (_hmode : rt.config.mode = DrawingMode.Colors ∨
             rt.config.mode = DrawingMode.Normals)
    (hperm : sched.Perm (List.range rt.pixelIndices.length)) :
    rt.run_parallel sq ent sched = rt.run_sequential sq ent := by
  have hmem : ∀ i, i < rt.pixelIndices.length → i ∈ sched := by
    intro i hi
    exact hperm.mem_iff.mpr (List.mem_range.mpr hi)
  unfold RayTracer.run_parallel RayTracer.run_sequential
  dsimp only
  have hpix : (List.range rt.pixelIndices.length).map
      (fun i =>
        (((sched.map fun j =>
            (j, match rt.pixelIndices[j]? with
                | some p => rt.generate_pixel sq (ent p.1 p.2) p.1 p.2
                | none => Vec3.new 0 0 0)).lookup i).getD (Vec3.new 0 0 0)))
      = rt.pixelsSeq sq ent := by
    unfold RayTracer.pixelsSeq
    have hstep : ∀ i, i < rt.pixelIndices.length →
        (((sched.map fun j =>
            (j, match rt.pixelIndices[j]? with
                | some p => rt.generate_pixel sq (ent p.1 p.2) p.1 p.2
                | none => Vec3.new 0 0 0)).lookup i).getD (Vec3.new 0 0 0))
          = match rt.pixelIndices[i]? with
            | some p => rt.generate_pixel sq (ent p.1 p.2) p.1 p.2
            | none => Vec3.new 0 0 0 := by
      intro i hi
      rw [lookup_map_self _ sched i (hmem i hi)]
      rfl
    apply List.ext_getElem
    · simp
    · intro i h1 h2
      simp only [List.getElem_map, List.getElem_range]
      rw [hstep i (by simpa using h1)]
      rw [List.getElem?_eq_getElem (by simpa using h2)]
  rw [hpix]

/-- Witness for C3: on the 2 by 2 Colors engine with the shuffled schedule
[3, 1, 0, 2], the parallel and sequential streams coincide. -/
theorem claim_C3_witness :
    (smallColorsRt.config.mode = DrawingMode.Colors ∨
     smallColorsRt.config.mode = DrawingMode.Normals) ∧
    List.Perm [3, 1, 0, 2] (List.range smallColorsRt.pixelIndices.length) ∧
    smallColorsRt.run_parallel id (fun _ _ => zeroEntropy) [3, 1, 0, 2]
      = smallColorsRt.run_sequential id (fun _ _ => zeroEntropy) :=
  ⟨Or.inl rfl, by with_unfolding_all decide,
    claim_C3_parallel_eq_sequential id smallColorsRt (fun _ _ => zeroEntropy)
      [3, 1, 0, 2] (Or.inl rfl) (by with_unfolding_all decide)⟩

end ClaimC3

end RustRaytracer
namespace RustRaytracer

/-- A successful `Option`-monad `mapM` relates input and output pointwise. -/
theorem mapM_option_forall2 {α β : Type} (f : α → Option β) :
    ∀ (l : List α) (l' : List β), l.mapM f = some l' →
      List.Forall₂ (fun a b => f a = some b) l l' := by
  intro l
  induction l with
  | nil =>
      intro l' h
      simp only [List.mapM_nil, pure] at h
      cases h
      exact List.Forall₂.nil
  | cons a l ih =>
      intro l' h
      rw [List.mapM_cons] at h
      cases hfa : f a with
      | none => rw [hfa] at h; simp at h
      | some b =>
          rw [hfa] at h
          cases hml : l.mapM f with
          | none => rw [hml] at h; simp at h
          | some bs =>
              rw [hml] at h
              simp only [Option.bind_some, Option.bind_eq_bind] at h
              cases h
              exact List.Forall₂.cons hfa (ih bs hml)

/-- The row-major pixel index list of a `w` by `h` image: position `i` holds
the coordinate pair `(i mod w, h - 1 - i / w)` — left to right within a row,
topmost row (y = h-1) first. -/
theorem pixelIndices_index (w : ℕ) :
    ∀ (h i : ℕ), i < h * w →
      ((List.range h).reverse.flatMap
        fun y => (List.range w).map fun x => (x, y))[i]?
        = some (i % w, h - 1 - i / w) := by
  intro h
  induction h with
  | zero => intro i hi; simp at hi
  | succ h ih =>
      intro i hi
      have hw : 0 < w := by
        rcases Nat.eq_zero_or_pos w with h0 | h0
        · subst h0; simp at hi
        · exact h0
      have hi' : i < h * w + w := by rw [Nat.succ_mul] at hi; exact hi
      have hlen : ((List.range w).map fun x => (x, h)).length = w := by simp
      rw [List.range_succ, List.reverse_append, List.reverse_singleton,
        List.singleton_append, List.flatMap_cons, List.getElem?_append]
      by_cases hiw : i < w
      · rw [if_pos (by rw [hlen]; exact hiw)]
        rw [List.getElem?_map, List.getElem?_range hiw]
        simp [Nat.mod_eq_of_lt hiw, Nat.div_eq_of_lt hiw]
      · push_neg at hiw
        rw [if_neg (by rw [hlen]; omega)]
        rw [hlen]
        have hrec := ih (i - w) (by omega)
        rw [hrec]
        have hdiv : i / w = (i - w) / w + 1 := Nat.div_eq_sub_div hw hiw
        rw [Nat.mod_eq_sub_mod hiw, hdiv]
        congr 2
        omega

/-- The pixel index list has exactly height · width entries. -/
theorem pixelIndices_length (rt : RayTracer) :
    rt.pixelIndices.length = rt.config.height * rt.config.width := by
  unfold RayTracer.pixelIndices
  rw [List.length_flatMap]
  have hconst : (List.length ∘ fun y : ℕ =>
      List.map (fun x => (x, y)) (List.range rt.config.width))
      = fun _ : ℕ => rt.config.width := by
    funext y; simp
  rw [hconst, List.map_const', List.sum_replicate, smul_eq_mul,
    List.length_reverse, List.length_range]

/-- A successful `write_color` emits a formatted triple of channel values,
each at most 255 (the panic guard rejected every larger value). -/
theorem write_color_some (sq : ℚ → ℚ) (rt : RayTracer) (c : Vec3)
    (line : String) (h : rt.write_color sq c = some line) :
    ∃ r g b, r ≤ 255 ∧ g ≤ 255 ∧ b ≤ 255 ∧ line = fmtColor r g b := by
  unfold RayTracer.write_color at h
  dsimp only at h
  split at h
  · cases h
  · rename_i hcond
    push_neg at hcond
    cases h
    exact ⟨_, _, _, hcond.1, hcond.2.1, hcond.2.2, rfl⟩

end RustRaytracer
namespace RustRaytracer

section ClaimC6

/-- C6: a successful `run_sequential` emits exactly the header lines `P3`,
`<width> <height>`, `255`, followed by exactly width·height color lines,
each a triple of integers at most 255, ordered row-major with the topmost
scanline (y = height-1) first: the line at offset `i` is the encoding of
the pixel `(i mod width, height - 1 - i / width)`. -/
theorem claim_C6_ppm_structure (sq : ℚ → ℚ) (rt : RayTracer)
    (ent : ℕ → ℕ → Entropy) (out : List String)
    (h : rt.run_sequential sq ent = some out) :
    out.take 3
      = ["P3", toString rt.config.width ++ " " ++ toString rt.config.height,
         "255"] ∧
    (out.drop 3).length = rt.config.width * rt.config.height ∧
    (∀ line ∈ out.drop 3,
      ∃ r g b, r ≤ 255 ∧ g ≤ 255 ∧ b ≤ 255 ∧ line = fmtColor r g b) ∧
    (∀ i, i < rt.config.width * rt.config.height →
      (out.drop 3)[i]? = rt.write_color sq
        (rt.generate_pixel sq
          (ent (i % rt.config.width)
            (rt.config.height - 1 - i / rt.config.width))
          (i % rt.config.width)
          (rt.config.height - 1 - i / rt.config.width))) := by
  unfold RayTracer.run_sequential at h
  rw [Option.map_eq_some'] at h
  obtain ⟨lines, hmapM, hout⟩ := h
  subst hout
  have htake : (rt.header ++ lines).take 3 = rt.header := by
    unfold RayTracer.header; rfl
  have hdrop : (rt.header ++ lines).drop 3 = lines := by
    unfold RayTracer.header; rfl
  have hF := mapM_option_forall2 (rt.write_color sq) _ _ hmapM
  obtain ⟨hlen, hR⟩ := List.forall₂_iff_get.mp hF
  have hcomm : rt.config.width * rt.config.height
      = rt.config.height * rt.config.width := Nat.mul_comm _ _
  have hlenp : (rt.pixelsSeq sq ent).length
      = rt.config.height * rt.config.width := by
    unfold RayTracer.pixelsSeq
    rw [List.length_map, pixelIndices_length]
  refine ⟨?_, ?_, ?_, ?_⟩
  · rw [htake]; rfl
  · rw [hdrop, ← hlen, hlenp, Nat.mul_comm]
  · intro line hline
    rw [hdrop] at hline
    obtain ⟨i, hi, heq⟩ := List.getElem_of_mem hline
    have hi2 : i < (rt.pixelsSeq sq ent).length := by omega
    have hw := hR i hi2 hi
    simp only [List.get_eq_getElem] at hw
    rw [heq] at hw
    exact write_color_some sq rt _ line hw
  · intro i hi
    rw [hdrop]
    have hi1 : i < lines.length := by omega
    have hi2 : i < (rt.pixelsSeq sq ent).length := by omega
    rw [List.getElem?_eq_getElem hi1]
    have hw := hR i hi2 hi1
    simp only [List.get_eq_getElem] at hw
    rw [← hw]
    congr 1
    unfold RayTracer.pixelsSeq
    rw [List.getElem_map]
    have hxy : rt.pixelIndices[i]?
        = some (i % rt.config.width,
            rt.config.height - 1 - i / rt.config.width) := by
      unfold RayTracer.pixelIndices
      exact pixelIndices_index rt.config.width rt.config.height i (by omega)
    have hi3 : i < rt.pixelIndices.length := by
      rw [pixelIndices_length]; omega
    rw [List.getElem?_eq_getElem hi3] at hxy
    rw [Option.some_inj.mp hxy]
end ClaimC6

end RustRaytracer
namespace RustRaytracer

set_option maxRecDepth 100000 in
/-- Witness for C6: the concrete 2 by 2 Colors render succeeds and its
stream has the claimed structure. -/
theorem claim_C6_witness :
    smallColorsRt.run_sequential id (fun _ _ => zeroEntropy)
      = some smallColorsOut ∧
    (smallColorsOut.take 3
      = ["P3", toString smallColorsRt.config.width ++ " "
          ++ toString smallColorsRt.config.height, "255"] ∧
     (smallColorsOut.drop 3).length
      = smallColorsRt.config.width * smallColorsRt.config.height ∧
     (∀ line ∈ smallColorsOut.drop 3,
        ∃ r g b, r ≤ 255 ∧ g ≤ 255 ∧ b ≤ 255 ∧ line = fmtColor r g b) ∧
     (∀ i, i < smallColorsRt.config.width * smallColorsRt.config.height →
        (smallColorsOut.drop 3)[i]? = smallColorsRt.write_color id
          (smallColorsRt.generate_pixel id
            ((fun _ _ => zeroEntropy) (i % smallColorsRt.config.width)
              (smallColorsRt.config.height - 1
                - i / smallColorsRt.config.width))
            (i % smallColorsRt.config.width)
            (smallColorsRt.config.height - 1
              - i / smallColorsRt.config.width)))) :=
  have hrun : smallColorsRt.run_sequential id (fun _ _ => zeroEntropy)
      = some smallColorsOut := by with_unfolding_all rfl
  ⟨hrun, claim_C6_ppm_structure id smallColorsRt (fun _ _ => zeroEntropy)
    smallColorsOut hrun⟩

end RustRaytracer
namespace RustRaytracer

section ClaimC9

set_option maxRecDepth 100000 in
/-- C9: configurations with width 1 or height 1 are accepted (the builders
perform no validation and both dimensions are positive), and the UV divisor
`dimension - 1` of `generate_pixel` is then zero.  Over the IEEE value
domain the UV of the single pixel row/column is NaN (0/0), and any jittered
numerator in [0,1) over the zero divisor is non-finite (NaN or +∞).  No
error or panic is raised: the IEEE transcription of the render still
produces and encodes a value for every pixel — the NaN propagates through
the ray, the sky gradient and the saturating cast, which writes 0, giving
the streams below.  The final conjunct validates the transcription against
the exact-rational embedding on a 2 by 2 render free of zero divisions. -/
theorem claim_C9_nonfinite_uv_still_encodes :
    oneWideCfg.width = 1 ∧ 0 < oneWideCfg.width ∧ 0 < oneWideCfg.height ∧
    oneTallCfg.height = 1 ∧ 0 < oneTallCfg.width ∧ 0 < oneTallCfg.height ∧
    ((oneWideCfg.width - 1 : ℕ) : ℚ) = 0 ∧
    uvF oneWideCfg.width 0 0 = FP.nan ∧
    uvF oneTallCfg.height 0 0 = FP.nan ∧
    (∀ j : ℚ, 0 ≤ j → (uvF oneWideCfg.width 0 j).isFinite = false) ∧
    runSequentialColorsEmptyF oneWideCfg.width oneWideCfg.height
      = some ["P3", "1 2", "255", "0 0 0", "0 0 0"] ∧
    runSequentialColorsEmptyF oneTallCfg.width oneTallCfg.height
      = some ["P3", "2 1", "255", "0 0 0", "0 0 0"] ∧
    runSequentialColorsEmptyF smallColorsRt.config.width
        smallColorsRt.config.height
      = smallColorsRt.run_sequential id (fun _ _ => zeroEntropy) := by
  refine ⟨rfl, by with_unfolding_all decide, by with_unfolding_all decide,
    rfl, by with_unfolding_all decide, by with_unfolding_all decide,
    by with_unfolding_all decide, by with_unfolding_all decide,
    by with_unfolding_all decide, ?_, by with_unfolding_all decide,
    by with_unfolding_all decide, by with_unfolding_all decide⟩
  intro j hj
  have h0 : ((oneWideCfg.width - 1 : ℕ) : ℚ) = 0 := by
    with_unfolding_all decide
  unfold uvF
  rw [h0]
  simp only [FP.div, Nat.cast_zero, zero_add, if_true]
  by_cases hj0 : j = 0
  · rw [if_pos hj0]; rfl
  · rw [if_neg hj0, if_pos (lt_of_le_of_ne hj (Ne.symm hj0))]; rfl

/-- Witness for C9's jitter generality: the draw 1/2 over the zero divisor
is non-finite. -/
theorem claim_C9_witness :
    (0 : ℚ) ≤ 1/2 ∧ (uvF oneWideCfg.width 0 (1/2)).isFinite = false :=
  ⟨by norm_num,
    claim_C9_nonfinite_uv_still_encodes.2.2.2.2.2.2.2.2.2.1 (1/2)
      (by norm_num)⟩

end ClaimC9

end RustRaytracer
